import Mathlib

/-!
Shallow embedding of the med-health chat/inbox aggregation, message
bookkeeping, registration flow and relational schema, together with
proofs of the specification claims about them.

Modelling conventions:
* Database rows are Lean structures; the messages table is a `List Message`
  in table order.
* `created_at` timestamps are modelled as `Nat`; the JavaScript code
  compares them through `new Date(s).getTime()`, which is a monotone
  embedding of the stored ISO timestamp strings.
* `Array.prototype.sort` (stable per the ECMAScript specification) is
  modelled as Mathlib stable insertion sort `List.insertionSort` over the
  relation "comparator result is at most 0".  For comparators that form a
  consistent total preorder every stable sort produces the same list, so
  the choice is canonical; the comparators of this repository are
  inconsistent when timestamps are missing, and the pairwise facts proved
  below are exactly the ones independent of that engine freedom on the
  inputs considered.
* A remote query that returns an error is modelled by a failure flag per
  counterpart; the doctor-side code swallows such errors per counterpart
  while the patient-side code rethrows, which the embedding mirrors with
  `Except`.
-/

namespace MedHealth

/-- A row of the messages table.  Columns follow the DDL plus the
media columns the message-sending code writes. -/
structure Message where
  id : Nat
  sender_id : String
  receiver_id : String
  message : String
  read : Bool
  created_at : Nat
  media_url : Option String := none
  media_type : Option String := none
deriving DecidableEq, Repr

/-- A row of the `users` select in the doctor-side fetchChats:
select of id, name, email with role = patient. -/
structure PatientRec where
  id : String
  name : String
  email : String
deriving DecidableEq, Repr

/-- A row of the `users` select in the patient-side fetchDoctors:
select of id, name, doctors(specialty) with role = doctor. -/
structure DoctorRec where
  id : String
  name : String
  specialty : Option String
deriving DecidableEq, Repr

/-- Doctor-side inbox entry (fetchChats in app/(doctor)/index.tsx):
`lastMessage` holds the placeholder string "No messages yet" when the
last-message lookup produced nothing, and `lastMessageTime = none`
models the empty-string time the code stores then. -/
structure ChatEntry where
  id : String
  name : String
  lastMessage : String
  lastMessageTime : Option Nat
  unreadCount : Nat
deriving DecidableEq, Repr

/-- Patient-side inbox entry (fetchDoctors in app/(patient)/index.tsx):
`lastMessage`/`lastMessageTime` model `messageData[0]?.message` and
`messageData[0]?.created_at` (undefined when no row), `hasUnread`
models `count ? count > 0 : false`. -/
structure DoctorEntry where
  id : String
  name : String
  specialty : Option String
  lastMessage : Option String
  lastMessageTime : Option Nat
  hasUnread : Bool
deriving DecidableEq, Repr

/-- The unread-count sub-query, shared by both sides:
sender_id = counterpart, receiver_id = user, read = false
with an exact count. -/
def unreadCount (uid cid : String) (msgs : List Message) : Nat :=
  (msgs.filter fun m =>
    m.sender_id == cid && m.receiver_id == uid && m.read == false).length

/-- The doctor-side two-party conversation filter:
`or(and(sender.eq.uid,receiver.eq.cid),and(sender.eq.cid,receiver.eq.uid))`. -/
def conversation (uid cid : String) (msgs : List Message) : List Message :=
  msgs.filter fun m =>
    (m.sender_id == uid && m.receiver_id == cid) ||
    (m.sender_id == cid && m.receiver_id == uid)

/-- The patient-side conversation filter: two chained `.or` filters,
which the query layer conjoins:
`(sender.eq.did or receiver.eq.did) and (sender.eq.uid or receiver.eq.uid)`. -/
def patientConv (uid did : String) (msgs : List Message) : List Message :=
  msgs.filter fun m =>
    (m.sender_id == did || m.receiver_id == did) &&
    (m.sender_id == uid || m.receiver_id == uid)

/-- Descending timestamp order on message rows. -/
def msgGe (a b : Message) : Prop := b.created_at ≤ a.created_at

instance : DecidableRel msgGe := fun a b => by
  unfold msgGe; infer_instance

/-- The order by created_at descending clause: stable descending sort of
the table rows by timestamp. -/
def newestFirst (l : List Message) : List Message :=
  l.insertionSort msgGe

/-- One doctor-side inbox entry.  `ufail` models an error of the
unread-count sub-query for this patient (the code then supplies count 0),
`lfail` an error of the last-message sub-query (the code then supplies no
message).  The last-message map is only populated when the fetched text is
truthy, so an empty text degrades exactly like a missing row. -/
def mkChatEntry (uid : String) (msgs : List Message) (ufail lfail : Bool)
    (p : PatientRec) : ChatEntry :=
  let uc := if ufail then 0 else unreadCount uid p.id msgs
  let lm := if lfail then none else (newestFirst (conversation uid p.id msgs)).head?
  let lm2 : Option Message := match lm with
    | some m => if m.message = "" then none else some m
    | none => none
  { id := p.id
    name := p.name
    lastMessage := match lm2 with
      | some m => m.message
      | none => "No messages yet"
    lastMessageTime := lm2.map fun m => m.created_at
    unreadCount := uc }

/-- The doctor-side sort comparator, literally:
numeric `b.unreadCount - a.unreadCount` when the counts differ, else the
timestamp difference when both times are truthy, else 0. -/
def chatCmp (a b : ChatEntry) : Int :=
  if a.unreadCount ≠ b.unreadCount then
    (b.unreadCount : Int) - (a.unreadCount : Int)
  else
    match a.lastMessageTime, b.lastMessageTime with
    | some ta, some tb => (tb : Int) - (ta : Int)
    | _, _ => 0

/-- `a` may be placed before `b` by the stable sort. -/
def chatLe (a b : ChatEntry) : Prop := chatCmp a b ≤ 0

instance : DecidableRel chatLe := fun a b => by
  unfold chatLe; infer_instance

/-- fetchChats (app/(doctor)/index.tsx): one entry per fetched patient,
then the stable sort with `chatCmp`.  The failure flags give, per patient
id, whether the unread-count and last-message sub-queries error. -/
def fetchChats (uid : String) (patients : List PatientRec)
    (msgs : List Message) (uf lf : String → Bool) : List ChatEntry :=
  (patients.map fun p =>
    mkChatEntry uid msgs (uf p.id) (lf p.id) p).insertionSort chatLe

/-- One patient-side inbox entry, on the success path. -/
def mkDoctorEntry (uid : String) (msgs : List Message)
    (d : DoctorRec) : DoctorEntry :=
  let md := (newestFirst (patientConv uid d.id msgs)).head?
  { id := d.id
    name := d.name
    specialty := d.specialty
    lastMessage := md.map fun m => m.message
    lastMessageTime := md.map fun m => m.created_at
    hasUnread := decide (0 < unreadCount uid d.id msgs) }

/-- The per-doctor lookups of fetchDoctors rethrow sub-query errors
(`if (messageError) throw messageError`, likewise for the unread count),
so the joint `Promise.all` rejects as soon as one counterpart fails. -/
def doctorEntries (uid : String) (msgs : List Message)
    (mf uf : String → Bool) : List DoctorRec → Except String (List DoctorEntry)
  | [] => Except.ok []
  | d :: ds =>
    if mf d.id then Except.error ("messageError")
    else if uf d.id then Except.error ("unreadError")
    else (doctorEntries uid msgs mf uf ds).map fun l =>
      mkDoctorEntry uid msgs d :: l

/-- The patient-side sort comparator, literally: -1 / 1 on differing
`hasUnread`, else the timestamp difference when both times are present,
else 0. -/
def docCmp (a b : DoctorEntry) : Int :=
  if a.hasUnread && !b.hasUnread then -1
  else if !a.hasUnread && b.hasUnread then 1
  else
    match a.lastMessageTime, b.lastMessageTime with
    | some ta, some tb => (tb : Int) - (ta : Int)
    | _, _ => 0

/-- `a` may be placed before `b` by the patient-side stable sort. -/
def docLe (a b : DoctorEntry) : Prop := docCmp a b ≤ 0

instance : DecidableRel docLe := fun a b => by
  unfold docLe; infer_instance

/-- fetchDoctors (app/(patient)/index.tsx): entries for all doctors,
sorted, unless some sub-query failed, in which case the whole aggregation
aborts with that error and no list is produced. -/
def fetchDoctors (uid : String) (doctors : List DoctorRec)
    (msgs : List Message) (mf uf : String → Bool) :
    Except String (List DoctorEntry) :=
  (doctorEntries uid msgs mf uf doctors).map fun l => l.insertionSort docLe

/-- A row of the `users` table as the application inserts it (id and
created_at come from column defaults). -/
structure UserRow where
  email : String
  name : String
  role : String
deriving DecidableEq, Repr

/-- signUp (context/auth-context.tsx): after a successful auth call the
code inserts one row with the given email and name and role patient; on an auth
error nothing is inserted.  The password only feeds the auth call.  The
value is the list of rows inserted into `users`. -/
def signUpInsertedRows (authError : Option String)
    (email pw name : String) : List UserRow :=
  match authError with
  | some _ => []
  | none =>
    let _ := pw
    [{ email := email, name := name, role := "patient" }]

/-- Every table-insert operation of the application code, one constructor
per insert call site: signUp (auth-context), the two appointment-booking
modals (patient layout), article publishing, and text/media message
sending. -/
inductive AppInsert where
  | signUpUser (email name : String)
  | bookAppointment (patientId doctorId date status payMethod : String)
  | publishArticle (doctorId title content : String) (imageUrl : Option String)
  | sendTextMessage (senderId receiverId text : String)
  | sendMediaMessage (senderId receiverId mediaType url : String)
deriving DecidableEq, Repr

/-- Target table of each insert call site. -/
def insertTable : AppInsert → String
  | .signUpUser _ _ => "users"
  | .bookAppointment _ _ _ _ _ => "appointments"
  | .publishArticle _ _ _ _ => "articles"
  | .sendTextMessage _ _ _ => "messages"
  | .sendMediaMessage _ _ _ _ => "messages"

/-- The `users` row an operation inserts, when it targets that table. -/
def usersRowOf : AppInsert → Option UserRow
  | .signUpUser e n => some { email := e, name := n, role := "patient" }
  | _ => none

/-- A column of the DDL. -/
structure ColumnSpec where
  name : String
  sqlType : String
deriving DecidableEq, Repr

/-- A table of the DDL. -/
structure TableSpec where
  name : String
  columns : List ColumnSpec
deriving DecidableEq, Repr

/-- CREATE TABLE users. -/
def usersTable : TableSpec :=
  { name := "users"
    columns := [
      { name := "id", sqlType := "UUID" },
      { name := "email", sqlType := "TEXT" },
      { name := "name", sqlType := "TEXT" },
      { name := "role", sqlType := "TEXT" },
      { name := "created_at", sqlType := "TIMESTAMP WITH TIME ZONE" }] }

/-- CREATE TABLE patient_verification. -/
def patientVerificationTable : TableSpec :=
  { name := "patient_verification"
    columns := [
      { name := "id", sqlType := "UUID" },
      { name := "medical_history", sqlType := "TEXT" },
      { name := "allergies", sqlType := "TEXT" },
      { name := "current_medications", sqlType := "TEXT" },
      { name := "emergency_contact", sqlType := "TEXT" },
      { name := "verified", sqlType := "BOOLEAN" }] }

/-- CREATE TABLE doctors. -/
def doctorsTable : TableSpec :=
  { name := "doctors"
    columns := [
      { name := "id", sqlType := "UUID" },
      { name := "specialty", sqlType := "TEXT" },
      { name := "experience", sqlType := "TEXT" }] }

/-- CREATE TABLE messages. -/
def messagesTable : TableSpec :=
  { name := "messages"
    columns := [
      { name := "id", sqlType := "SERIAL" },
      { name := "sender_id", sqlType := "UUID" },
      { name := "receiver_id", sqlType := "UUID" },
      { name := "message", sqlType := "TEXT" },
      { name := "read", sqlType := "BOOLEAN" },
      { name := "created_at", sqlType := "TIMESTAMP WITH TIME ZONE" }] }

/-- CREATE TABLE appointments. -/
def appointmentsTable : TableSpec :=
  { name := "appointments"
    columns := [
      { name := "id", sqlType := "SERIAL" },
      { name := "patient_id", sqlType := "UUID" },
      { name := "doctor_id", sqlType := "UUID" },
      { name := "date", sqlType := "TIMESTAMP WITH TIME ZONE" },
      { name := "status", sqlType := "TEXT" },
      { name := "payment_method", sqlType := "TEXT" },
      { name := "created_at", sqlType := "TIMESTAMP WITH TIME ZONE" }] }

/-- CREATE TABLE articles. -/
def articlesTable : TableSpec :=
  { name := "articles"
    columns := [
      { name := "id", sqlType := "SERIAL" },
      { name := "doctor_id", sqlType := "UUID" },
      { name := "title", sqlType := "TEXT" },
      { name := "content", sqlType := "TEXT" },
      { name := "image_url", sqlType := "TEXT" },
      { name := "created_at", sqlType := "TIMESTAMP WITH TIME ZONE" }] }

/-- The schema, in DDL creation order. -/
def dbSchema : List TableSpec :=
  [usersTable, patientVerificationTable, doctorsTable,
   messagesTable, appointmentsTable, articlesTable]

/-- markMessagesAsRead (app/(doctor)/messages.tsx and chat.tsx): the row
filter of the update statement. -/
def markPred (uid cid : String) (m : Message) : Bool :=
  m.sender_id == cid && m.receiver_id == uid && m.read == false

/-- markMessagesAsRead: `update({ read: true })` on the rows matching
`markPred`, everything else untouched. -/
def markMessagesAsRead (uid cid : String) (msgs : List Message) :
    List Message :=
  msgs.map fun m => if markPred uid cid m then { m with read := true } else m

/-! ### Generic facts about stable insertion sort under the comparators
of this repository.

The comparators are total (the comparator of two entries negates under
swapping its arguments) but not transitive when timestamps are missing,
so Mathlib `sorted_insertionSort` does not apply directly.  Two
replacements: sortedness in a numeric key that the comparator decides
whenever the keys differ, and full sortedness relative to a predicate
cutting out a transitive sub-domain. -/

theorem pairwise_orderedInsert_key {α : Type} (r : α → α → Prop)
    [DecidableRel r] (w : α → Nat)
    (h1 : ∀ x y, r x y → w y ≤ w x) (h2 : ∀ x y, ¬ r x y → w x ≤ w y)
    (a : α) (l : List α) (h : l.Pairwise fun x y => w y ≤ w x) :
    (l.orderedInsert r a).Pairwise fun x y => w y ≤ w x := by
  induction l with
  | nil => simp
  | cons b l ih =>
    rcases List.pairwise_cons.mp h with ⟨hb, hl⟩
    by_cases hr : r a b
    · rw [List.orderedInsert, if_pos hr]
      refine List.pairwise_cons.mpr ⟨?_, h⟩
      intro y hy
      rcases List.mem_cons.mp hy with hy | hy
      · exact hy ▸ h1 a b hr
      · exact le_trans (hb y hy) (h1 a b hr)
    · rw [List.orderedInsert, if_neg hr]
      refine List.pairwise_cons.mpr ⟨?_, ih hl⟩
      intro y hy
      rcases (List.mem_orderedInsert r).mp hy with hy | hy
      · exact hy ▸ h2 a b hr
      · exact hb y hy

theorem pairwise_insertionSort_key {α : Type} (r : α → α → Prop)
    [DecidableRel r] (w : α → Nat)
    (h1 : ∀ x y, r x y → w y ≤ w x) (h2 : ∀ x y, ¬ r x y → w x ≤ w y)
    (l : List α) :
    (l.insertionSort r).Pairwise fun x y => w y ≤ w x := by
  induction l with
  | nil => simp
  | cons a l ih =>
    exact pairwise_orderedInsert_key r w h1 h2 a _ ih

theorem pairwise_orderedInsert_of {α : Type} (r : α → α → Prop)
    [DecidableRel r] (P : α → Prop)
    (total : ∀ x y, P x → P y → r x y ∨ r y x)
    (trans : ∀ x y z, P x → P y → P z → r x y → r y z → r x z)
    (a : α) (l : List α) (ha : P a) (hl : ∀ x ∈ l, P x)
    (h : l.Pairwise r) : (l.orderedInsert r a).Pairwise r := by
  induction l with
  | nil => simp
  | cons b l ih =>
    rcases List.pairwise_cons.mp h with ⟨hb, hpl⟩
    have hPb : P b := hl b (List.mem_cons_self b l)
    have hPl : ∀ x ∈ l, P x := fun x hx => hl x (List.mem_cons_of_mem b hx)
    by_cases hr : r a b
    · rw [List.orderedInsert, if_pos hr]
      refine List.pairwise_cons.mpr ⟨?_, h⟩
      intro y hy
      rcases List.mem_cons.mp hy with hy | hy
      · exact hy ▸ hr
      · exact trans a b y ha hPb (hPl y hy) hr (hb y hy)
    · rw [List.orderedInsert, if_neg hr]
      refine List.pairwise_cons.mpr ⟨?_, ih hPl hpl⟩
      intro y hy
      rcases (List.mem_orderedInsert r).mp hy with hy | hy
      · exact hy ▸ (total a b ha hPb).resolve_left hr
      · exact hb y hy

theorem pairwise_insertionSort_of {α : Type} (r : α → α → Prop)
    [DecidableRel r] (P : α → Prop)
    (total : ∀ x y, P x → P y → r x y ∨ r y x)
    (trans : ∀ x y z, P x → P y → P z → r x y → r y z → r x z)
    (l : List α) (hl : ∀ x ∈ l, P x) :
    (l.insertionSort r).Pairwise r := by
  induction l with
  | nil => simp
  | cons a l ih =>
    have hPa : P a := hl a (List.mem_cons_self a l)
    have hPl : ∀ x ∈ l, P x := fun x hx => hl x (List.mem_cons_of_mem a hx)
    refine pairwise_orderedInsert_of r P total trans a _ hPa ?_ (ih hPl)
    intro x hx
    exact hPl x ((List.perm_insertionSort r l).subset hx)

/-! ### Comparator characterizations -/

theorem chatLe_unread_le {a b : ChatEntry} (h : chatLe a b) :
    b.unreadCount ≤ a.unreadCount := by
  unfold chatLe chatCmp at h
  by_cases hu : a.unreadCount = b.unreadCount
  · omega
  · rw [if_pos hu] at h
    omega

theorem not_chatLe_unread_le {a b : ChatEntry} (h : ¬ chatLe a b) :
    a.unreadCount ≤ b.unreadCount := by
  unfold chatLe chatCmp at h
  by_cases hu : a.unreadCount = b.unreadCount
  · omega
  · rw [if_pos hu] at h
    omega

theorem chatLe_iff {a b : ChatEntry} {ta tb : Nat}
    (ha : a.lastMessageTime = some ta) (hb : b.lastMessageTime = some tb) :
    chatLe a b ↔
      b.unreadCount < a.unreadCount ∨
        (a.unreadCount = b.unreadCount ∧ tb ≤ ta) := by
  unfold chatLe chatCmp
  rw [ha, hb]
  by_cases hu : a.unreadCount = b.unreadCount
  · rw [if_neg (by omega)]
    simp only []
    omega
  · rw [if_pos hu]
    omega

/-- `hasUnread` as a numeric key. -/
def unreadKey (e : DoctorEntry) : Nat := cond e.hasUnread 1 0

theorem docLe_key_le {a b : DoctorEntry} (h : docLe a b) :
    unreadKey b ≤ unreadKey a := by
  unfold docLe docCmp at h
  unfold unreadKey
  cases hA : a.hasUnread <;> cases hB : b.hasUnread <;>
    simp [hA, hB] at h ⊢

theorem not_docLe_key_le {a b : DoctorEntry} (h : ¬ docLe a b) :
    unreadKey a ≤ unreadKey b := by
  unfold docLe docCmp at h
  unfold unreadKey
  cases hA : a.hasUnread <;> cases hB : b.hasUnread <;>
    simp [hA, hB] at h ⊢

theorem docLe_iff {a b : DoctorEntry} {ta tb : Nat}
    (ha : a.lastMessageTime = some ta) (hb : b.lastMessageTime = some tb) :
    docLe a b ↔
      unreadKey b < unreadKey a ∨
        (unreadKey a = unreadKey b ∧ tb ≤ ta) := by
  unfold docLe docCmp unreadKey
  cases hA : a.hasUnread <;> cases hB : b.hasUnread <;>
    simp [hA, hB, ha, hb]

/-! ### The descending-timestamp sort used for last-message lookups -/

theorem newestFirst_head_max (l : List Message) (hne : l ≠ []) :
    ∃ m, (newestFirst l).head? = some m ∧ m ∈ l ∧
      ∀ x ∈ l, x.created_at ≤ m.created_at := by
  unfold newestFirst
  have hperm : List.Perm (l.insertionSort msgGe) l :=
    List.perm_insertionSort msgGe l
  have hsorted : (l.insertionSort msgGe).Pairwise msgGe := by
    refine pairwise_insertionSort_of msgGe (fun _ => True) ?_ ?_ l
      (fun _ _ => trivial)
    · intro x y _ _
      unfold msgGe
      omega
    · intro x y z _ _ _ hxy hyz
      unfold msgGe at hxy hyz ⊢
      omega
  cases hs : l.insertionSort msgGe with
  | nil =>
    have : l = [] := (hs ▸ hperm).symm.eq_nil
    exact absurd this hne
  | cons m rest =>
    refine ⟨m, ?_, ?_, ?_⟩
    · rfl
    · exact hperm.subset (hs ▸ List.mem_cons_self m rest)
    · intro x hx
      have hx2 : x ∈ m :: rest := hs ▸ hperm.symm.subset hx
      rcases List.mem_cons.mp hx2 with hx2 | hx2
      · exact hx2 ▸ le_refl _
      · have := (List.pairwise_cons.mp (hs ▸ hsorted)).1 x hx2
        exact this

/-! ### Structural facts about the aggregations -/

theorem mkChatEntry_id (uid : String) (msgs : List Message)
    (ufail lfail : Bool) (p : PatientRec) :
    (mkChatEntry uid msgs ufail lfail p).id = p.id := rfl

theorem mkDoctorEntry_id (uid : String) (msgs : List Message)
    (d : DoctorRec) : (mkDoctorEntry uid msgs d).id = d.id := rfl

theorem fetchChats_perm (uid : String) (patients : List PatientRec)
    (msgs : List Message) (uf lf : String → Bool) :
    (fetchChats uid patients msgs uf lf).Perm
      (patients.map fun p => mkChatEntry uid msgs (uf p.id) (lf p.id) p) :=
  List.perm_insertionSort chatLe _

theorem doctorEntries_ok {uid : String} {msgs : List Message}
    {mf uf : String → Bool} {ds : List DoctorRec} {l : List DoctorEntry}
    (h : doctorEntries uid msgs mf uf ds = Except.ok l) :
    l = ds.map (mkDoctorEntry uid msgs) := by
  induction ds generalizing l with
  | nil =>
    unfold doctorEntries at h
    simpa using (Except.ok.inj h).symm
  | cons d ds ih =>
    unfold doctorEntries at h
    by_cases hm : mf d.id
    · rw [if_pos hm] at h
      exact absurd h (by simp)
    · rw [if_neg hm] at h
      by_cases hu : uf d.id
      · rw [if_pos hu] at h
        exact absurd h (by simp)
      · rw [if_neg hu] at h
        cases hrec : doctorEntries uid msgs mf uf ds with
        | error e =>
          rw [hrec] at h
          exact absurd h (by simp [Except.map])
        | ok l0 =>
          rw [hrec] at h
          have : mkDoctorEntry uid msgs d :: l0 = l := by
            simpa [Except.map] using h
          rw [List.map_cons, ← ih hrec, this]

theorem doctorEntries_aborts (uid : String) (msgs : List Message)
    {mf uf : String → Bool} {ds : List DoctorRec}
    (h : ds.any (fun d => mf d.id || uf d.id) = true) :
    ∃ e, doctorEntries uid msgs mf uf ds = Except.error e := by
  induction ds with
  | nil => simp at h
  | cons d ds ih =>
    unfold doctorEntries
    by_cases hm : mf d.id
    · exact ⟨"messageError", by rw [if_pos hm]⟩
    · rw [if_neg hm]
      by_cases hu : uf d.id
      · exact ⟨"unreadError", by rw [if_pos hu]⟩
      · rw [if_neg hu]
        have : ds.any (fun d => mf d.id || uf d.id) = true := by
          simp only [List.any_cons, hm, hu] at h
          simpa using h
        rcases ih this with ⟨e, he⟩
        exact ⟨e, by rw [he]; rfl⟩

theorem fetchDoctors_ok {uid : String} {doctors : List DoctorRec}
    {msgs : List Message} {mf uf : String → Bool} {l : List DoctorEntry}
    (h : fetchDoctors uid doctors msgs mf uf = Except.ok l) :
    l = (doctors.map (mkDoctorEntry uid msgs)).insertionSort docLe := by
  unfold fetchDoctors at h
  cases hrec : doctorEntries uid msgs mf uf doctors with
  | error e =>
    rw [hrec] at h
    exact absurd h (by simp [Except.map])
  | ok l0 =>
    rw [hrec] at h
    have h2 : l0.insertionSort docLe = l := by
      simpa [Except.map] using h
    rw [← h2, doctorEntries_ok hrec]

/-! ### Claim theorems -/

/-- Claim C8: the relational schema consists of exactly the six tables
users, doctors, patient_verification, appointments, messages and
articles, as defined by the DDL of the repository (here embedded in
creation order with the declared columns). -/
theorem c8_schema_six_tables :
    dbSchema.map TableSpec.name =
      ["users", "patient_verification", "doctors",
       "messages", "appointments", "articles"] ∧
    dbSchema.length = 6 ∧
    (dbSchema.map TableSpec.name).Perm
      ["users", "doctors", "patient_verification",
       "appointments", "messages", "articles"] ∧
    (dbSchema.map TableSpec.name).Nodup := by
  refine ⟨rfl, rfl, ?_, ?_⟩ <;> decide

/-- Claim C9: a successful signUp inserts exactly one users row, with role
patient; every users row any application insert operation creates has
role patient, and the only insert call site targeting the users table is
the signUp registration flow, so every account created through the
registration flow of the app is a patient account. -/
theorem c9_registration_patient_only :
    (∀ email pw name : String,
      signUpInsertedRows none email pw name =
        [{ email := email, name := name, role := "patient" }]) ∧
    (∀ (err : Option String) (email pw name : String),
      ((signUpInsertedRows err email pw name).map UserRow.role).all
        (fun r => r == "patient") = true) ∧
    (∀ op : AppInsert,
      (usersRowOf op).all (fun r => r.role == "patient") = true) ∧
    (∀ op : AppInsert,
      usersRowOf op = none ∨
        ∃ e n, op = AppInsert.signUpUser e n ∧ insertTable op = "users") := by
  refine ⟨fun _ _ _ => rfl, ?_, ?_, ?_⟩
  · intro err email pw name
    cases err <;> rfl
  · intro op
    cases op <;> rfl
  · intro op
    cases op with
    | signUpUser e n => exact Or.inr ⟨e, n, rfl, rfl⟩
    | bookAppointment a b c d e => exact Or.inl rfl
    | publishArticle a b c d => exact Or.inl rfl
    | sendTextMessage a b c => exact Or.inl rfl
    | sendMediaMessage a b c d => exact Or.inl rfl

/-- Claim C10: markMessagesAsRead touches exactly the rows whose sender is the
open counterpart, whose receiver is the current user and whose read flag
is false, and on those rows it changes only the read flag; every other
row, and every other column of the touched rows, is returned unchanged,
row for row. -/
theorem c10_mark_read_frame (uid cid : String) (msgs : List Message) :
    List.Forall₂ (fun m m2 =>
      m2.id = m.id ∧ m2.sender_id = m.sender_id ∧
      m2.receiver_id = m.receiver_id ∧ m2.message = m.message ∧
      m2.media_url = m.media_url ∧ m2.media_type = m.media_type ∧
      m2.created_at = m.created_at ∧
      m2.read = (if markPred uid cid m then true else m.read))
      msgs (markMessagesAsRead uid cid msgs) := by
  induction msgs with
  | nil => exact List.Forall₂.nil
  | cons m l ih =>
    refine List.Forall₂.cons ?_ ih
    by_cases h : markPred uid cid m <;>
      simp [markMessagesAsRead, h]

/-- Claim C1, amended: degrade-on-partial-failure holds on the doctor side
only.  In fetchChats every patient yields exactly one entry whatever
sub-queries fail; a failing unread-count sub-query degrades that entry to
unreadCount 0 and a failing last-message sub-query degrades it to the
no-message placeholder with no timestamp, while an entry whose
sub-queries succeed is computed as with no failures at all.  On the
patient side, fetchDoctors rethrows the first sub-query error, so one
failing counterpart aborts the whole aggregation and no list is
produced. -/
theorem c1_partial_failure_amended :
    (∀ (uid : String) (patients : List PatientRec) (msgs : List Message)
      (uf lf : String → Bool),
      (fetchChats uid patients msgs uf lf).Perm
        (patients.map fun p => mkChatEntry uid msgs (uf p.id) (lf p.id) p)) ∧
    (∀ (uid : String) (msgs : List Message) (lfail : Bool) (p : PatientRec),
      (mkChatEntry uid msgs true lfail p).unreadCount = 0) ∧
    (∀ (uid : String) (msgs : List Message) (ufail : Bool) (p : PatientRec),
      (mkChatEntry uid msgs ufail true p).lastMessage = "No messages yet" ∧
      (mkChatEntry uid msgs ufail true p).lastMessageTime = none) ∧
    (∀ (uid : String) (doctors : List DoctorRec) (msgs : List Message)
      (mf uf : String → Bool),
      doctors.any (fun d => mf d.id || uf d.id) = true →
      (fetchDoctors uid doctors msgs mf uf).toOption = none) := by
  refine ⟨fun uid patients msgs uf lf => fetchChats_perm uid patients msgs uf lf,
    fun _ _ _ _ => rfl, fun _ _ _ _ => ⟨rfl, rfl⟩, ?_⟩
  intro uid doctors msgs mf uf h
  rcases doctorEntries_aborts uid msgs h with ⟨e, he⟩
  unfold fetchDoctors
  rw [he]
  rfl

/-- Claim C1 counterexample: on the patient side one failing last-message
sub-query makes the whole aggregation abort with that error, instead of
degrading the affected entry; no list of entries is produced at all. -/
theorem c1_counterexample :
    fetchDoctors "u" [{ id := "d", name := "D", specialty := some ("s") }]
      [] (fun x => x == "d") (fun _ => false) =
      Except.error ("messageError") := by
  rfl

/-- Claim C1 witness for the amended theorem, at the input of the
counterexample. -/
theorem c1_witness :
    (fetchDoctors "u" [{ id := "d", name := "D", specialty := some ("s") }]
      [] (fun x => x == "d") (fun _ => false)).toOption = none :=
  c1_partial_failure_amended.2.2.2 "u"
    [{ id := "d", name := "D", specialty := some ("s") }]
    [] (fun x => x == "d") (fun _ => false) (by decide)

theorem countP_fetchChats (uid : String) (patients : List PatientRec)
    (msgs : List Message) (uf lf : String → Bool) (i : String) :
    (fetchChats uid patients msgs uf lf).countP (fun e => e.id == i) =
      (patients.map PatientRec.id).count i := by
  rw [List.Perm.countP_eq _ (fetchChats_perm uid patients msgs uf lf),
    List.countP_map, List.count_eq_countP, List.countP_map]
  refine List.countP_congr ?_
  intro p _
  simp [Function.comp, mkChatEntry_id]

theorem countP_sorted_doctors (uid : String) (msgs : List Message)
    (doctors : List DoctorRec) (i : String) :
    ((doctors.map (mkDoctorEntry uid msgs)).insertionSort docLe).countP
      (fun e => e.id == i) = (doctors.map DoctorRec.id).count i := by
  rw [List.Perm.countP_eq _ (List.perm_insertionSort docLe _),
    List.countP_map, List.count_eq_countP, List.countP_map]
  refine List.countP_congr ?_
  intro d _
  simp [Function.comp, mkDoctorEntry_id]

/-- Claim C2: for a non-empty set of counterparts (modelled as a list of
pairwise distinct ids) and any message history, the aggregation output
has exactly one entry per counterpart: its length is the number of
counterparts and each counterpart id occurs exactly once, on the doctor
side unconditionally and on the patient side whenever the aggregation
produces a list at all. -/
theorem c2_one_entry_per_counterpart (uid : String)
    (patients : List PatientRec) (msgs : List Message)
    (uf lf : String → Bool) (doctors : List DoctorRec)
    (mf uq : String → Bool) (l : List DoctorEntry)
    (_hne : patients ≠ []) (hnd : (patients.map PatientRec.id).Nodup)
    (_hdne : doctors ≠ []) (hdnd : (doctors.map DoctorRec.id).Nodup)
    (hok : fetchDoctors uid doctors msgs mf uq = Except.ok l) :
    (fetchChats uid patients msgs uf lf).length = patients.length ∧
    (∀ p ∈ patients,
      (fetchChats uid patients msgs uf lf).countP
        (fun e => e.id == p.id) = 1) ∧
    l.length = doctors.length ∧
    (∀ d ∈ doctors, l.countP (fun e => e.id == d.id) = 1) := by
  have hlen : (fetchChats uid patients msgs uf lf).length = patients.length := by
    rw [(fetchChats_perm uid patients msgs uf lf).length_eq, List.length_map]
  have hl : l = (doctors.map (mkDoctorEntry uid msgs)).insertionSort docLe :=
    fetchDoctors_ok hok
  refine ⟨hlen, ?_, ?_, ?_⟩
  · intro p hp
    rw [countP_fetchChats]
    exact List.count_eq_one_of_mem hnd (List.mem_map_of_mem PatientRec.id hp)
  · rw [hl, (List.perm_insertionSort docLe _).length_eq, List.length_map]
  · intro d hd
    rw [hl, countP_sorted_doctors]
    exact List.count_eq_one_of_mem hdnd (List.mem_map_of_mem DoctorRec.id hd)

/-- Claim C2 witness at a concrete one-patient, one-doctor input. -/
theorem c2_witness :
    (fetchChats "u" [{ id := "a", name := "A", email := "a@x" }] []
      (fun _ => false) (fun _ => false)).length = 1 ∧
    (fetchChats "u" [{ id := "a", name := "A", email := "a@x" }] []
      (fun _ => false) (fun _ => false)).countP
        (fun e => e.id == "a") = 1 := by
  have h := c2_one_entry_per_counterpart "u"
    [{ id := "a", name := "A", email := "a@x" }] []
    (fun _ => false) (fun _ => false)
    [{ id := "d", name := "D", specialty := none }]
    (fun _ => false) (fun _ => false)
    [{ id := "d", name := "D", specialty := none, lastMessage := none,
       lastMessageTime := none, hasUnread := false }]
    (by decide) (by decide) (by decide) (by decide) (by rfl)
  exact ⟨h.1, h.2.1 { id := "a", name := "A", email := "a@x" }
    (List.mem_singleton.mpr rfl)⟩

/-- Claim C3: in the sorted output every entry with a positive unread count
precedes every entry with unread count zero: for any pair in output
order, either the earlier entry has unread messages or the later one has
none.  Doctor side for all inputs; patient side for every produced
list. -/
theorem c3_unread_precede (uid : String) (patients : List PatientRec)
    (msgs : List Message) (uf lf : String → Bool)
    (doctors : List DoctorRec) (mf uq : String → Bool)
    (l : List DoctorEntry)
    (hok : fetchDoctors uid doctors msgs mf uq = Except.ok l) :
    (fetchChats uid patients msgs uf lf).Pairwise
      (fun a b => b.unreadCount = 0 ∨ 0 < a.unreadCount) ∧
    l.Pairwise (fun a b => b.hasUnread = false ∨ a.hasUnread = true) := by
  constructor
  · have h := pairwise_insertionSort_key chatLe ChatEntry.unreadCount
      (fun x y hxy => chatLe_unread_le hxy)
      (fun x y hxy => not_chatLe_unread_le hxy)
      (patients.map fun p => mkChatEntry uid msgs (uf p.id) (lf p.id) p)
    refine h.imp ?_
    intro a b hab
    omega
  · rw [fetchDoctors_ok hok]
    have h := pairwise_insertionSort_key docLe unreadKey
      (fun x y hxy => docLe_key_le hxy)
      (fun x y hxy => not_docLe_key_le hxy)
      (doctors.map (mkDoctorEntry uid msgs))
    refine h.imp ?_
    intro a b hab
    unfold unreadKey at hab
    cases ha : a.hasUnread <;> cases hb : b.hasUnread <;>
      simp [ha, hb] at hab ⊢

/-- Claim C3 witness at a concrete input with one unread and one read
conversation. -/
theorem c3_witness :
    (fetchChats "u"
      [{ id := "a", name := "A", email := "a@x" },
       { id := "b", name := "B", email := "b@x" }]
      [{ id := 1, sender_id := "a", receiver_id := "u", message := "m1",
         read := false, created_at := 10, media_url := none,
         media_type := none }]
      (fun _ => false) (fun _ => false)).Pairwise
      (fun a b => b.unreadCount = 0 ∨ 0 < a.unreadCount) :=
  (c3_unread_precede "u"
    [{ id := "a", name := "A", email := "a@x" },
     { id := "b", name := "B", email := "b@x" }]
    [{ id := 1, sender_id := "a", receiver_id := "u", message := "m1",
       read := false, created_at := 10, media_url := none,
       media_type := none }]
    (fun _ => false) (fun _ => false)
    [{ id := "d", name := "D", specialty := none }]
    (fun _ => false) (fun _ => false)
    [{ id := "d", name := "D", specialty := none, lastMessage := none,
       lastMessageTime := none, hasUnread := false }]
    (by rfl)).1

theorem chatLe_total_ts {x y : ChatEntry}
    (hx : x.lastMessageTime.isSome = true)
    (hy : y.lastMessageTime.isSome = true) : chatLe x y ∨ chatLe y x := by
  rcases Option.isSome_iff_exists.mp hx with ⟨tx, htx⟩
  rcases Option.isSome_iff_exists.mp hy with ⟨ty, hty⟩
  rw [chatLe_iff htx hty, chatLe_iff hty htx]
  omega

theorem chatLe_trans_ts {x y z : ChatEntry}
    (hx : x.lastMessageTime.isSome = true)
    (hy : y.lastMessageTime.isSome = true)
    (hz : z.lastMessageTime.isSome = true)
    (hxy : chatLe x y) (hyz : chatLe y z) : chatLe x z := by
  rcases Option.isSome_iff_exists.mp hx with ⟨tx, htx⟩
  rcases Option.isSome_iff_exists.mp hy with ⟨ty, hty⟩
  rcases Option.isSome_iff_exists.mp hz with ⟨tz, htz⟩
  rw [chatLe_iff htx hty] at hxy
  rw [chatLe_iff hty htz] at hyz
  rw [chatLe_iff htx htz]
  omega

theorem docLe_total_ts {x y : DoctorEntry}
    (hx : x.lastMessageTime.isSome = true)
    (hy : y.lastMessageTime.isSome = true) : docLe x y ∨ docLe y x := by
  rcases Option.isSome_iff_exists.mp hx with ⟨tx, htx⟩
  rcases Option.isSome_iff_exists.mp hy with ⟨ty, hty⟩
  rw [docLe_iff htx hty, docLe_iff hty htx]
  omega

theorem docLe_trans_ts {x y z : DoctorEntry}
    (hx : x.lastMessageTime.isSome = true)
    (hy : y.lastMessageTime.isSome = true)
    (hz : z.lastMessageTime.isSome = true)
    (hxy : docLe x y) (hyz : docLe y z) : docLe x z := by
  rcases Option.isSome_iff_exists.mp hx with ⟨tx, htx⟩
  rcases Option.isSome_iff_exists.mp hy with ⟨ty, hty⟩
  rcases Option.isSome_iff_exists.mp hz with ⟨tz, htz⟩
  rw [docLe_iff htx hty] at hxy
  rw [docLe_iff hty htz] at hyz
  rw [docLe_iff htx htz]
  omega

theorem pairwise_chatLe_of_ts (uid : String) (patients : List PatientRec)
    (msgs : List Message) (uf lf : String → Bool)
    (h : ∀ e ∈ fetchChats uid patients msgs uf lf,
      e.lastMessageTime.isSome = true) :
    (fetchChats uid patients msgs uf lf).Pairwise chatLe := by
  refine pairwise_insertionSort_of chatLe
    (fun e => e.lastMessageTime.isSome = true)
    (fun x y hx hy => chatLe_total_ts hx hy)
    (fun x y z hx hy hz => chatLe_trans_ts hx hy hz) _ ?_
  intro e he
  exact h e ((fetchChats_perm uid patients msgs uf lf).mem_iff.mpr he)

theorem pairwise_docLe_of_ts (uid : String) (msgs : List Message)
    (doctors : List DoctorRec)
    (h : ∀ e ∈ (doctors.map (mkDoctorEntry uid msgs)).insertionSort docLe,
      e.lastMessageTime.isSome = true) :
    ((doctors.map (mkDoctorEntry uid msgs)).insertionSort docLe).Pairwise
      docLe := by
  refine pairwise_insertionSort_of docLe
    (fun e => e.lastMessageTime.isSome = true)
    (fun x y hx hy => docLe_total_ts hx hy)
    (fun x y z hx hy hz => docLe_trans_ts hx hy hz) _ ?_
  intro e he
  exact h e ((List.perm_insertionSort docLe _).mem_iff.mpr he)

/-- Claim C4, amended: within each group of entries sharing the same primary
sort key — on the doctor side the exact numeric unreadCount (the code
orders by count, not merely by unread status), on the patient side the
unread status — the entries are non-increasing in lastMessageTimestamp,
provided every entry of the output carries a timestamp.  Entries without
a timestamp are not placed last: the comparator treats a missing
timestamp as a tie, so the stable sort leaves such entries where they
stand. -/
theorem c4_group_order_amended (uid : String) (patients : List PatientRec)
    (msgs : List Message) (uf lf : String → Bool)
    (doctors : List DoctorRec) (mf uq : String → Bool)
    (l : List DoctorEntry)
    (hok : fetchDoctors uid doctors msgs mf uq = Except.ok l)
    (hts : ∀ e ∈ fetchChats uid patients msgs uf lf,
      e.lastMessageTime.isSome = true)
    (hts2 : ∀ e ∈ l, e.lastMessageTime.isSome = true) :
    (fetchChats uid patients msgs uf lf).Pairwise
      (fun a b => a.unreadCount = b.unreadCount →
        b.lastMessageTime.getD 0 ≤ a.lastMessageTime.getD 0) ∧
    l.Pairwise (fun a b => a.hasUnread = b.hasUnread →
      b.lastMessageTime.getD 0 ≤ a.lastMessageTime.getD 0) := by
  constructor
  · refine (pairwise_chatLe_of_ts uid patients msgs uf lf hts).imp_of_mem ?_
    intro a b ha hb hab hu
    rcases Option.isSome_iff_exists.mp (hts a ha) with ⟨ta, hta⟩
    rcases Option.isSome_iff_exists.mp (hts b hb) with ⟨tb, htb⟩
    rw [chatLe_iff hta htb] at hab
    rw [hta, htb]
    simpa using by omega
  · have hl := fetchDoctors_ok hok
    subst hl
    refine (pairwise_docLe_of_ts uid msgs doctors hts2).imp_of_mem ?_
    intro a b ha hb hab hu
    rcases Option.isSome_iff_exists.mp (hts2 a ha) with ⟨ta, hta⟩
    rcases Option.isSome_iff_exists.mp (hts2 b hb) with ⟨tb, htb⟩
    rw [docLe_iff hta htb] at hab
    rw [hta, htb]
    have : unreadKey a = unreadKey b := by
      unfold unreadKey
      rw [hu]
    simpa using by omega

/-- Claim C4 counterexample: on the doctor side two entries of the same
unread-status group (both have unread messages) come out with strictly
increasing timestamps because the code orders by numeric count; and an
entry with no timestamp precedes one with a timestamp inside the
zero-unread group, so missing timestamps are not placed last. -/
theorem c4_counterexample :
    ((fetchChats "u"
      [{ id := "a", name := "A", email := "a@x" },
       { id := "b", name := "B", email := "b@x" }]
      [{ id := 1, sender_id := "a", receiver_id := "u", message := "m1",
         read := false, created_at := 100, media_url := none,
         media_type := none },
       { id := 2, sender_id := "b", receiver_id := "u", message := "m2",
         read := false, created_at := 50, media_url := none,
         media_type := none },
       { id := 3, sender_id := "b", receiver_id := "u", message := "m3",
         read := false, created_at := 40, media_url := none,
         media_type := none }]
      (fun _ => false) (fun _ => false)).map
        (fun e => (e.unreadCount, e.lastMessageTime)) =
      [(2, some 50), (1, some 100)]) ∧
    ((fetchChats "u"
      [{ id := "n", name := "N", email := "n@x" },
       { id := "y", name := "Y", email := "y@x" }]
      [{ id := 4, sender_id := "u", receiver_id := "y", message := "hi",
         read := true, created_at := 10, media_url := none,
         media_type := none }]
      (fun _ => false) (fun _ => false)).map
        (fun e => (e.id, e.unreadCount, e.lastMessageTime)) =
      [("n", 0, none), ("y", 0, some 10)]) := by
  constructor <;> rfl

/-- Claim C4 witness for the amended theorem at an input where all entries
carry timestamps. -/
theorem c4_witness :
    (fetchChats "u"
      [{ id := "a", name := "A", email := "a@x" },
       { id := "b", name := "B", email := "b@x" }]
      [{ id := 1, sender_id := "a", receiver_id := "u", message := "m1",
         read := true, created_at := 100, media_url := none,
         media_type := none },
       { id := 2, sender_id := "b", receiver_id := "u", message := "m2",
         read := true, created_at := 50, media_url := none,
         media_type := none }]
      (fun _ => false) (fun _ => false)).Pairwise
      (fun a b => a.unreadCount = b.unreadCount →
        b.lastMessageTime.getD 0 ≤ a.lastMessageTime.getD 0) :=
  (c4_group_order_amended "u"
    [{ id := "a", name := "A", email := "a@x" },
     { id := "b", name := "B", email := "b@x" }]
    [{ id := 1, sender_id := "a", receiver_id := "u", message := "m1",
       read := true, created_at := 100, media_url := none,
       media_type := none },
     { id := 2, sender_id := "b", receiver_id := "u", message := "m2",
       read := true, created_at := 50, media_url := none,
       media_type := none }]
    (fun _ => false) (fun _ => false)
    [] (fun _ => false) (fun _ => false) []
    (by rfl) (by decide) (by decide)).1

/-- Claim C5, amended: the doctor side sorts by numeric unreadCount
descending — two entries that both have unread messages are ordered by
their counts, not by timestamp — and the patient side by unread status
descending; when every entry carries a timestamp the doctor-side order
is exactly unreadCount descending with timestamp descending inside equal
counts.  Counterparts with no messages are not necessarily last: the
comparator treats their missing timestamp as a tie and the stable sort
leaves them in place within their group. -/
theorem c5_sort_keys_amended (uid : String) (patients : List PatientRec)
    (msgs : List Message) (uf lf : String → Bool)
    (doctors : List DoctorRec) (mf uq : String → Bool)
    (l : List DoctorEntry)
    (hok : fetchDoctors uid doctors msgs mf uq = Except.ok l)
    (hts : ∀ e ∈ fetchChats uid patients msgs uf lf,
      e.lastMessageTime.isSome = true) :
    (fetchChats uid patients msgs uf lf).Pairwise
      (fun a b => b.unreadCount ≤ a.unreadCount) ∧
    l.Pairwise (fun a b => unreadKey b ≤ unreadKey a) ∧
    (fetchChats uid patients msgs uf lf).Pairwise
      (fun a b => b.unreadCount < a.unreadCount ∨
        (a.unreadCount = b.unreadCount ∧
          b.lastMessageTime.getD 0 ≤ a.lastMessageTime.getD 0)) := by
  refine ⟨?_, ?_, ?_⟩
  · exact pairwise_insertionSort_key chatLe ChatEntry.unreadCount
      (fun x y hxy => chatLe_unread_le hxy)
      (fun x y hxy => not_chatLe_unread_le hxy) _
  · rw [fetchDoctors_ok hok]
    exact pairwise_insertionSort_key docLe unreadKey
      (fun x y hxy => docLe_key_le hxy)
      (fun x y hxy => not_docLe_key_le hxy) _
  · refine (pairwise_chatLe_of_ts uid patients msgs uf lf hts).imp_of_mem ?_
    intro a b ha hb hab
    rcases Option.isSome_iff_exists.mp (hts a ha) with ⟨ta, hta⟩
    rcases Option.isSome_iff_exists.mp (hts b hb) with ⟨tb, htb⟩
    rw [chatLe_iff hta htb] at hab
    rw [hta, htb]
    simpa using by omega

/-- Claim C5 counterexample: sorting is not by the boolean key unread-status
descending then timestamp descending — with two unread-positive entries
the numeric counts decide against the timestamps — and a counterpart
with no messages at all is not sorted last. -/
theorem c5_counterexample :
    ((fetchChats "u"
      [{ id := "a2", name := "A2", email := "a2@x" },
       { id := "b2", name := "B2", email := "b2@x" }]
      [{ id := 1, sender_id := "a2", receiver_id := "u", message := "p1",
         read := false, created_at := 100, media_url := none,
         media_type := none },
       { id := 2, sender_id := "b2", receiver_id := "u", message := "p2",
         read := false, created_at := 50, media_url := none,
         media_type := none },
       { id := 3, sender_id := "b2", receiver_id := "u", message := "p3",
         read := false, created_at := 45, media_url := none,
         media_type := none },
       { id := 4, sender_id := "b2", receiver_id := "u", message := "p4",
         read := false, created_at := 40, media_url := none,
         media_type := none }]
      (fun _ => false) (fun _ => false)).map
        (fun e => (e.id, e.unreadCount, e.lastMessageTime)) =
      [("b2", 3, some 50), ("a2", 1, some 100)]) ∧
    ((fetchChats "u"
      [{ id := "z1", name := "Z1", email := "z1@x" },
       { id := "z2", name := "Z2", email := "z2@x" }]
      [{ id := 5, sender_id := "u", receiver_id := "z2", message := "ok",
         read := true, created_at := 7, media_url := none,
         media_type := none }]
      (fun _ => false) (fun _ => false)).map
        (fun e => (e.id, e.unreadCount, e.lastMessageTime)) =
      [("z1", 0, none), ("z2", 0, some 7)]) := by
  constructor <;> rfl

/-- Claim C5 witness for the amended theorem. -/
theorem c5_witness :
    (fetchChats "u"
      [{ id := "a2", name := "A2", email := "a2@x" }]
      [{ id := 1, sender_id := "a2", receiver_id := "u", message := "p1",
         read := false, created_at := 100, media_url := none,
         media_type := none }]
      (fun _ => false) (fun _ => false)).Pairwise
      (fun a b => b.unreadCount ≤ a.unreadCount) :=
  (c5_sort_keys_amended "u"
    [{ id := "a2", name := "A2", email := "a2@x" }]
    [{ id := 1, sender_id := "a2", receiver_id := "u", message := "p1",
       read := false, created_at := 100, media_url := none,
       media_type := none }]
    (fun _ => false) (fun _ => false)
    [] (fun _ => false) (fun _ => false) []
    (by rfl) (by decide)).1

theorem unreadCount_conv_nil {uid cid : String} {msgs : List Message}
    (hc : conversation uid cid msgs = []) : unreadCount uid cid msgs = 0 := by
  unfold conversation at hc
  rw [List.filter_eq_nil_iff] at hc
  unfold unreadCount
  rw [List.length_eq_zero, List.filter_eq_nil_iff]
  intro m hm hcontra
  refine hc m hm ?_
  simp only [Bool.and_eq_true, beq_iff_eq] at hcontra
  simp only [Bool.or_eq_true, Bool.and_eq_true, beq_iff_eq]
  exact Or.inr ⟨hcontra.1.1, hcontra.1.2⟩

theorem unreadCount_patientConv_nil {uid did : String} {msgs : List Message}
    (hc : patientConv uid did msgs = []) : unreadCount uid did msgs = 0 := by
  unfold patientConv at hc
  rw [List.filter_eq_nil_iff] at hc
  unfold unreadCount
  rw [List.length_eq_zero, List.filter_eq_nil_iff]
  intro m hm hcontra
  refine hc m hm ?_
  simp only [Bool.and_eq_true, beq_iff_eq] at hcontra
  simp only [Bool.or_eq_true, Bool.and_eq_true, beq_iff_eq]
  exact ⟨Or.inl hcontra.1.1, Or.inr hcontra.1.2⟩

theorem patientConv_eq_conversation (uid did : String) (msgs : List Message)
    (h : uid ≠ did) : patientConv uid did msgs = conversation uid did msgs := by
  unfold patientConv conversation
  refine List.filter_congr ?_
  intro m _
  rw [Bool.eq_iff_iff]
  simp only [Bool.and_eq_true, Bool.or_eq_true, beq_iff_eq]
  constructor
  · rintro ⟨hA | hA, hB | hB⟩
    · exact absurd (hB.symm.trans hA) h
    · exact Or.inr ⟨hA, hB⟩
    · exact Or.inl ⟨hB, hA⟩
    · exact absurd (hB.symm.trans hA) h
  · rintro (⟨h1, h2⟩ | ⟨h1, h2⟩)
    · exact ⟨Or.inr h2, Or.inl h1⟩
    · exact ⟨Or.inl h1, Or.inr h2⟩

/-- Claim C6, amended: a counterpart with no messages exchanged with the
current user still yields an entry, with zero unread count; on the
patient side its last message is absent (undefined), while on the doctor
side the entry carries the placeholder string "No messages yet" and an
empty timestamp rather than a null last message. -/
theorem c6_empty_conversation_amended (uid : String) (msgs : List Message)
    (p : PatientRec) (patients : List PatientRec) (hp : p ∈ patients)
    (hc : conversation uid p.id msgs = [])
    (d : DoctorRec) (doctors : List DoctorRec) (hd : d ∈ doctors)
    (hcd : patientConv uid d.id msgs = [])
    (mf uq : String → Bool) (l : List DoctorEntry)
    (hok : fetchDoctors uid doctors msgs mf uq = Except.ok l) :
    mkChatEntry uid msgs false false p =
      { id := p.id, name := p.name, lastMessage := "No messages yet",
        lastMessageTime := none, unreadCount := 0 } ∧
    mkChatEntry uid msgs false false p ∈
      fetchChats uid patients msgs (fun _ => false) (fun _ => false) ∧
    mkDoctorEntry uid msgs d =
      { id := d.id, name := d.name, specialty := d.specialty,
        lastMessage := none, lastMessageTime := none,
        hasUnread := false } ∧
    mkDoctorEntry uid msgs d ∈ l := by
  refine ⟨?_, ?_, ?_, ?_⟩
  · simp [mkChatEntry, hc, newestFirst, unreadCount_conv_nil hc]
  · refine (fetchChats_perm uid patients msgs _ _).mem_iff.mpr ?_
    exact List.mem_map_of_mem
      (fun p => mkChatEntry uid msgs false false p) hp
  · simp [mkDoctorEntry, hcd, newestFirst, unreadCount_patientConv_nil hcd]
  · rw [fetchDoctors_ok hok]
    refine (List.perm_insertionSort docLe _).mem_iff.mpr ?_
    exact List.mem_map_of_mem (mkDoctorEntry uid msgs) hd

/-- Claim C6 counterexample: for a counterpart with no message history the
doctor-side entry does not have a null last message: the lastMessage
field holds the placeholder string "No messages yet" (and the timestamp
is the empty sentinel), so the claim that the entry has lastMessage =
null fails on the doctor side. -/
theorem c6_counterexample :
    fetchChats "u" [{ id := "p", name := "P", email := "p@x" }] []
      (fun _ => false) (fun _ => false) =
      [{ id := "p", name := "P", lastMessage := "No messages yet",
         lastMessageTime := none, unreadCount := 0 }] ∧
    "No messages yet" ≠ "" := by
  constructor <;> decide

/-- Claim C6 witness for the amended theorem. -/
theorem c6_witness :
    mkChatEntry "u" [] false false { id := "p", name := "P", email := "p@x" } =
      { id := "p", name := "P", lastMessage := "No messages yet",
        lastMessageTime := none, unreadCount := 0 } ∧
    mkDoctorEntry "u" [] { id := "d", name := "D", specialty := none } =
      { id := "d", name := "D", specialty := none, lastMessage := none,
        lastMessageTime := none, hasUnread := false } := by
  have h := c6_empty_conversation_amended "u" []
    { id := "p", name := "P", email := "p@x" }
    [{ id := "p", name := "P", email := "p@x" }] (by decide) (by decide)
    { id := "d", name := "D", specialty := none }
    [{ id := "d", name := "D", specialty := none }] (by decide) (by decide)
    (fun _ => false) (fun _ => false)
    [{ id := "d", name := "D", specialty := none, lastMessage := none,
       lastMessageTime := none, hasUnread := false }] (by rfl)
  exact ⟨h.1, h.2.2.1⟩

/-- Claim C7, amended: for a counterpart with at least one message exchanged
with the current user, the entry carries the text and timestamp of the
most recent message of the two-party conversation, in either direction —
on the doctor side provided the texts of the conversation are non-empty
(the code treats a falsy text as no message and degrades the entry), and
on the patient side for a counterpart distinct from the current user. -/
theorem c7_most_recent_amended (uid : String) (msgs : List Message)
    (p : PatientRec)
    (hne : conversation uid p.id msgs ≠ [])
    (htext : ∀ m ∈ conversation uid p.id msgs, m.message ≠ "")
    (d : DoctorRec) (hneq : uid ≠ d.id)
    (hned : conversation uid d.id msgs ≠ []) :
    (∃ m ∈ conversation uid p.id msgs,
      (∀ x ∈ conversation uid p.id msgs, x.created_at ≤ m.created_at) ∧
      (mkChatEntry uid msgs false false p).lastMessage = m.message ∧
      (mkChatEntry uid msgs false false p).lastMessageTime =
        some m.created_at) ∧
    (∃ m ∈ conversation uid d.id msgs,
      (∀ x ∈ conversation uid d.id msgs, x.created_at ≤ m.created_at) ∧
      (mkDoctorEntry uid msgs d).lastMessage = some m.message ∧
      (mkDoctorEntry uid msgs d).lastMessageTime = some m.created_at) := by
  constructor
  · rcases newestFirst_head_max (conversation uid p.id msgs) hne with
      ⟨m, hhead, hmem, hmax⟩
    refine ⟨m, hmem, hmax, ?_, ?_⟩ <;>
      simp [mkChatEntry, hhead, htext m hmem]
  · rcases newestFirst_head_max (conversation uid d.id msgs) hned with
      ⟨m, hhead, hmem, hmax⟩
    refine ⟨m, hmem, hmax, ?_, ?_⟩ <;>
      simp [mkDoctorEntry, patientConv_eq_conversation uid d.id msgs hneq,
        hhead]

/-- Claim C7 counterexample: when the most recent (indeed the only) message of
a conversation has empty text, the doctor-side entry does not carry its
text and timestamp: the truthiness check on the fetched text drops it,
degrading the entry to the placeholder and no timestamp. -/
theorem c7_counterexample :
    conversation "u" "p"
      [{ id := 1, sender_id := "u", receiver_id := "p", message := "",
         read := false, created_at := 5, media_url := none,
         media_type := none }] ≠ [] ∧
    (mkChatEntry "u"
      [{ id := 1, sender_id := "u", receiver_id := "p", message := "",
         read := false, created_at := 5, media_url := none,
         media_type := none }] false false
      { id := "p", name := "P", email := "p@x" }).lastMessage =
      "No messages yet" ∧
    (mkChatEntry "u"
      [{ id := 1, sender_id := "u", receiver_id := "p", message := "",
         read := false, created_at := 5, media_url := none,
         media_type := none }] false false
      { id := "p", name := "P", email := "p@x" }).lastMessageTime =
      none := by
  refine ⟨by decide, by decide, by decide⟩

/-- Claim C7 witness for the amended theorem at a two-message history. -/
theorem c7_witness :
    (∃ m ∈ conversation "u" "p"
      [{ id := 1, sender_id := "u", receiver_id := "p", message := "hello",
         read := false, created_at := 5, media_url := none,
         media_type := none },
       { id := 2, sender_id := "dd", receiver_id := "u", message := "yo",
         read := false, created_at := 9, media_url := none,
         media_type := none }],
      (∀ x ∈ conversation "u" "p"
        [{ id := 1, sender_id := "u", receiver_id := "p", message := "hello",
           read := false, created_at := 5, media_url := none,
           media_type := none },
         { id := 2, sender_id := "dd", receiver_id := "u", message := "yo",
           read := false, created_at := 9, media_url := none,
           media_type := none }], x.created_at ≤ m.created_at) ∧
      (mkChatEntry "u"
        [{ id := 1, sender_id := "u", receiver_id := "p", message := "hello",
           read := false, created_at := 5, media_url := none,
           media_type := none },
         { id := 2, sender_id := "dd", receiver_id := "u", message := "yo",
           read := false, created_at := 9, media_url := none,
           media_type := none }] false false
        { id := "p", name := "P", email := "p@x" }).lastMessage =
        m.message ∧
      (mkChatEntry "u"
        [{ id := 1, sender_id := "u", receiver_id := "p", message := "hello",
           read := false, created_at := 5, media_url := none,
           media_type := none },
         { id := 2, sender_id := "dd", receiver_id := "u", message := "yo",
           read := false, created_at := 9, media_url := none,
           media_type := none }] false false
        { id := "p", name := "P", email := "p@x" }).lastMessageTime =
        some m.created_at) :=
  (c7_most_recent_amended "u"
    [{ id := 1, sender_id := "u", receiver_id := "p", message := "hello",
       read := false, created_at := 5, media_url := none,
       media_type := none },
     { id := 2, sender_id := "dd", receiver_id := "u", message := "yo",
       read := false, created_at := 9, media_url := none,
       media_type := none }]
    { id := "p", name := "P", email := "p@x" } (by decide) (by decide)
    { id := "dd", name := "D", specialty := none } (by decide)
    (by decide)).1

end MedHealth
